import Mathlib

/-!
# Verification of the wget-clone mirroring engine (src/main.go)

A shallow embedding of the core of the Go program: the URL / path helpers
from the standard library that the program calls (`path/filepath`,
`net/url`, `strings`), the link extractor and HTML rewriter, the crawl
scheduler's visited-set discipline, the URL filter and the single-file
download path.  The rate-limit parser is not embedded: its value
semantics pass through `strconv.ParseFloat` and Go's `int64(float64)`
conversion, i.e. through IEEE-754 binary64 arithmetic (and, out of the
int64 range, through behaviour the Go specification leaves
implementation-specific), which is outside this embedding.

Modelling conventions:
* Go strings are Lean `String`s; most primitives are implemented over the
  underlying `List Char` so that everything reduces definitionally.
* The HTML parse-and-walk capability is an external collaborator; a parsed
  document is modelled as the sequence of its element nodes in document
  order (`HElem`), which is all the extractor and the rewriter look at.
* `net/url.URL` is modelled by `GoURL` with scheme, opaque part, host,
  path, query and fragment; userinfo, ports and percent-escape decoding
  are elided (they are irrelevant to every property proved here).
* Machine integers carry no overflow in any modelled computation, so Go
  `int`/`int64` become `Int`.
-/

namespace GoWget

/-! ## Character and list-of-char helpers (models of Go `strings`) -/

/-- ASCII lower-casing of a character, as `strings.ToLower` acts on ASCII. -/
def lowerChar (c : Char) : Char :=
  if 'A' ≤ c ∧ c ≤ 'Z' then Char.ofNat (c.toNat + 32) else c

/-- Model of `strings.ToLower` (restricted to ASCII case folding). -/
def goToLower (s : String) : String := String.mk (s.data.map lowerChar)

/-- Model of `strings.HasPrefix`. -/
def goHasPrefix (s pre : String) : Bool := pre.data.isPrefixOf s.data

/-- Model of `strings.HasSuffix`. -/
def goHasSuffix (s suf : String) : Bool := suf.data.isSuffixOf s.data

/-- Model of `strings.TrimPrefix`. -/
def goTrimPrefix (s pre : String) : String :=
  if goHasPrefix s pre then String.mk (s.data.drop pre.data.length) else s

/-- Does `pat` occur as a contiguous run inside `l`?  (Model of the search
underlying `strings.Contains`; the empty pattern occurs everywhere.) -/
def listInfixOf (pat : List Char) : List Char → Bool
  | [] => decide (pat = [])
  | c :: t => pat.isPrefixOf (c :: t) || listInfixOf pat t

/-- Model of `strings.Contains`. -/
def goContains (s sub : String) : Bool := listInfixOf sub.data s.data

/-- Split a list of chars on every occurrence of `sep`
(model of `strings.Split` with a one-character separator).
The result is always nonempty. -/
def charListSplit (sep : Char) : List Char → List (List Char)
  | [] => [[]]
  | c :: rest =>
    let r := charListSplit sep rest
    if c = sep then [] :: r
    else
      match r with
      | [] => [[c]]
      | h :: t => (c :: h) :: t

/-- Model of `strings.Split` on a one-character separator. -/
def goSplitChar (sep : Char) (s : String) : List String :=
  (charListSplit sep s.data).map String.mk

/-- Cut `l` at the first occurrence of `sep`, dropping the separator:
the pair (before, after).  When `sep` is absent the second component is
empty — exactly the `split(s, c, true)` helper of `net/url`. -/
def goCutChar (sep : Char) : List Char → List Char × List Char
  | [] => ([], [])
  | c :: rest =>
    if c = sep then ([], rest)
    else
      let p := goCutChar sep rest
      (c :: p.1, p.2)

/-- Cut `l` at the first `'/'`, keeping the slash with the remainder:
the pair (before, slash-and-after).  Used for authority splitting and
for locating the last slash of a reversed path. -/
def cutAtSlashKeep : List Char → List Char × List Char
  | [] => ([], [])
  | c :: rest =>
    if c = '/' then ([], c :: rest)
    else
      let p := cutAtSlashKeep rest
      (c :: p.1, p.2)

/-- Model of `strings.TrimSpace` (ASCII whitespace). -/
def goTrimSpace (s : String) : String :=
  String.mk (((s.data.dropWhile Char.isWhitespace).reverse.dropWhile
    Char.isWhitespace).reverse)

/-! ## Models of `path/filepath` (Unix rules) -/

/-- Helper for `goExt`: scan the reversed character list; stop at a slash
with no extension, or return the suffix from the last dot. -/
def goExtAux : List Char → List Char → String
  | [], _ => ""
  | c :: rest, acc =>
    if c = '/' then ""
    else if c = '.' then String.mk ('.' :: acc)
    else goExtAux rest (c :: acc)

/-- Model of `filepath.Ext`: the suffix of the final path element starting
at its last dot, or the empty string. -/
def goExt (p : String) : String := goExtAux p.data.reverse []

/-- Model of `filepath.Clean` (Unix): iteratively drop `.` elements and
empty elements, resolve `..` against the element stack, keep leading `..`
elements of relative paths, and never escape the root of rooted paths. -/
def goClean (p : String) : String :=
  if p = "" then "." else
  let rooted := (['/'] : List Char).isPrefixOf p.data
  let segs := charListSplit '/' p.data
  let out := segs.foldl (fun acc seg =>
    if seg = [] ∨ seg = ['.'] then acc
    else if seg = ['.', '.'] then
      (if acc ≠ [] ∧ acc.getLast? ≠ some ['.', '.'] then acc.dropLast
       else if rooted then acc
       else acc ++ [['.', '.']])
    else acc ++ [seg]) []
  let joined := String.intercalate "/" (out.map String.mk)
  let res := (if rooted then "/" else "") ++ joined
  if res = "" then "." else res

/-- Model of `filepath.Join`: skip leading empty elements, join the rest
with `/`, then `Clean`; all-empty input gives the empty string. -/
def goJoinList (elems : List String) : String :=
  match elems.dropWhile (fun e => e = "") with
  | [] => ""
  | l => goClean (String.intercalate "/" l)

/-- Two-argument `filepath.Join`, as the source calls it. -/
def goJoin2 (a b : String) : String := goJoinList [a, b]

/-- Three-argument `filepath.Join`, as the source calls it. -/
def goJoin3 (a b c : String) : String := goJoinList [a, b, c]

/-- Model of `filepath.Dir`: everything up to and including the final
slash, then `Clean`; a slash-free path has directory `.`. -/
def goDir (p : String) : String :=
  goClean (String.mk (cutAtSlashKeep p.data.reverse).2.reverse)

/-- Model of `path.Base` (used by the non-mirroring download path). -/
def goPathBase (p : String) : String :=
  if p = "" then "." else
  let l := p.data.reverse.dropWhile (fun c => c = '/')
  if l = [] then "/"
  else String.mk (cutAtSlashKeep l).1.reverse

/-- Segment list of a cleaned path for `goRel`.  A cleaned path has no
trailing or doubled slashes except the bare root `/`, whose Go
segment-scan sees a single empty element. -/
def relSegsOf (s : String) : List (List Char) :=
  if s = "" then []
  else if s = "/" then [[]]
  else charListSplit '/' s.data

/-- After the common prefix of base and target segments is gone:
error when the next base element is `..`, otherwise climb with `..` once
per remaining base element and descend into the remaining target. -/
def relFinish (bs ts : List (List Char)) : Option String :=
  if bs.head? = some ['.', '.'] then none
  else
    let parts := List.replicate bs.length (".." : String) ++ ts.map String.mk
    match parts with
    | [] => some "."
    | _ => some (String.intercalate "/" parts)

/-- Strip the common leading segments of base and target, then finish. -/
def relSegs : List (List Char) → List (List Char) → Option String
  | b :: bs2, t :: ts2 =>
    if b = t then relSegs bs2 ts2 else relFinish (b :: bs2) (t :: ts2)
  | bs, ts => relFinish bs ts

/-- Model of `filepath.Rel` (Unix): `none` is the error case, in which the
source falls back to a root-absolute path. -/
def goRel (basepath targpath : String) : Option String :=
  let base := goClean basepath
  let targ := goClean targpath
  if targ = base then some "." else
  let base := if base = "." then "" else base
  let baseRooted := (['/'] : List Char).isPrefixOf base.data
  let targRooted := (['/'] : List Char).isPrefixOf targ.data
  if baseRooted ≠ targRooted then none
  else relSegs (relSegsOf base) (relSegsOf targ)

/-! ## Model of `net/url` -/

/-- Model of `net/url.URL`, restricted to the fields the program reads:
scheme, opaque part, host (userinfo and ports elided, so `Hostname()` is
the `host` field itself), path, query and fragment.  Percent-escape
processing is elided throughout. -/
structure GoURL where
  scheme : String
  opq : String
  host : String
  path : String
  query : String
  fragment : String
  deriving DecidableEq

/-- Is `c` forbidden in a URL?  (`net/url` rejects ASCII control
characters.) -/
def isCtlChar (c : Char) : Bool := c.toNat < 0x20 || c.toNat = 0x7f

/-- Model of the scheme scan of `net/url.Parse`: `none` is the
"missing protocol scheme" error; otherwise the (possibly empty) scheme
and the remainder.  `orig` is the whole input, returned untouched when no
scheme is present. -/
def getSchemeAux (orig : List Char) (acc : List Char) :
    List Char → Option (List Char × List Char)
  | [] => some ([], orig)
  | c :: r =>
    if ('a' ≤ c ∧ c ≤ 'z') ∨ ('A' ≤ c ∧ c ≤ 'Z') then
      getSchemeAux orig (acc ++ [c]) r
    else if ('0' ≤ c ∧ c ≤ '9') ∨ c = '+' ∨ c = '-' ∨ c = '.' then
      (if acc = [] then some ([], orig) else getSchemeAux orig (acc ++ [c]) r)
    else if c = ':' then
      (if acc = [] then none else some (acc, r))
    else some ([], orig)

/-- Does the first path segment of a rootless reference contain a colon?
(`net/url` rejects such scheme-less URLs as ambiguous.) -/
def colonInFirstSeg (l : List Char) : Bool :=
  (cutAtSlashKeep l).1.contains ':'

/-- Model of `net/url.Parse`: control-character rejection, fragment and
query splitting, scheme detection with lower-casing, opaque rootless
paths for scheme-ful URLs, the colon-in-first-segment error for
scheme-less rootless paths, and `//`-authority splitting.  Userinfo,
ports, percent-escapes and host validation are elided. -/
def parseURL (raw : String) : Option GoURL :=
  if raw.data.any isCtlChar then none else
  let cutF := goCutChar '#' raw.data
  match getSchemeAux cutF.1 [] cutF.1 with
  | none => none
  | some sr =>
    let scheme := goToLower (String.mk sr.1)
    let cutQ := goCutChar '?' sr.2
    let rest := cutQ.1
    if ¬ (['/'] : List Char).isPrefixOf rest ∧ scheme ≠ "" then
      some ⟨scheme, String.mk rest, "", "", String.mk cutQ.2, String.mk cutF.2⟩
    else if ¬ (['/'] : List Char).isPrefixOf rest ∧ scheme = ""
        ∧ colonInFirstSeg rest then
      none
    else
      let hp :=
        if (['/', '/'] : List Char).isPrefixOf rest
            ∧ (scheme ≠ "" ∨ ¬ (['/', '/', '/'] : List Char).isPrefixOf rest) then
          cutAtSlashKeep (rest.drop 2)
        else ([], rest)
      some ⟨scheme, "", String.mk hp.1, String.mk hp.2,
        String.mk cutQ.2, String.mk cutF.2⟩

/-- The portion of `base` up to and including its last slash
(`base[:strings.LastIndex(base, "/")+1]`). -/
def upToLastSlashIncl (base : List Char) : List Char :=
  (cutAtSlashKeep base.reverse).2.reverse

/-- Model of `net/url`'s `resolvePath`: merge `ref` into `base` per
RFC 3986, resolving `.` and `..` elements against a segment stack and
restoring a trailing slash after a final dot element. -/
def resolvePath (base ref : String) : String :=
  let full :=
    if ref = "" then base
    else if (['/'] : List Char).isPrefixOf ref.data then ref
    else String.mk (upToLastSlashIncl base.data ++ ref.data)
  if full = "" then "" else
  let src := charListSplit '/' full.data
  let dst := src.foldl (fun acc e =>
    if e = ['.'] then acc
    else if e = ['.', '.'] then acc.dropLast
    else acc ++ [e]) []
  let dst :=
    match src.getLast? with
    | some e => if e = ['.'] ∨ e = ['.', '.'] then dst ++ [[]] else dst
    | none => dst
  "/" ++ goTrimPrefix (String.intercalate "/" (dst.map String.mk)) "/"

/-- Model of `(*net/url.URL).ResolveReference`. -/
def resolveReference (u ref : GoURL) : GoURL :=
  let url0 : GoURL :=
    { ref with scheme := if ref.scheme = "" then u.scheme else ref.scheme }
  if ref.scheme ≠ "" ∨ ref.host ≠ "" then
    { url0 with path := resolvePath ref.path "" }
  else if ref.opq ≠ "" then
    { url0 with host := "", path := "" }
  else
    let url1 :=
      if ref.path = "" ∧ ref.query = "" then
        let u2 := { url0 with query := u.query }
        if ref.fragment = "" then { u2 with fragment := u.fragment } else u2
      else url0
    { url1 with host := u.host, path := resolvePath u.path ref.path }

/-- Model of `(*net/url.URL).String` for the fields kept in `GoURL`. -/
def urlString (u : GoURL) : String :=
  (if u.scheme ≠ "" then u.scheme ++ ":" else "") ++
  (if u.opq ≠ "" then u.opq else
    (if (u.scheme ≠ "" ∨ u.host ≠ "") ∧ (u.host ≠ "" ∨ u.path ≠ "") then
      "//" ++ u.host else "") ++
    (if u.path ≠ "" ∧ ¬ (['/'] : List Char).isPrefixOf u.path.data
        ∧ u.host ≠ "" then "/" else "") ++ u.path) ++
  (if u.query ≠ "" then "?" ++ u.query else "") ++
  (if u.fragment ≠ "" then "#" ++ u.fragment else "")

/-! ## HTML documents

The HTML parse / walk / render capability (`golang.org/x/net/html`) is an
external collaborator.  A parsed document is modelled as the list of its
element nodes in document (pre-)order; each node carries its tag name and
its attribute list, which is everything `extractLinks` and `rewriteHTML`
inspect. -/

/-- One element node of a parsed HTML document. -/
structure HElem where
  tag : String
  attrs : List (String × String)
  deriving DecidableEq

/-! ## Link extraction (`extractLinks`, src/main.go lines 474-519) -/

/-- The attribute a tag is scanned for during extraction, per the
`switch n.Data` at lines 485-492: `a`/`link` use `href`, `img`/`script`
use `src`, `form` uses `action`; other tags yield nothing. -/
def extractAttrName (tag : String) : String :=
  if tag = "a" ∨ tag = "link" then "href"
  else if tag = "img" ∨ tag = "script" then "src"
  else if tag = "form" then "action"
  else ""

/-- The first attribute with the given key (the inner loop at lines
495-508 breaks on the first key match). -/
def findAttr (key : String) (attrs : List (String × String)) :
    Option String :=
  (attrs.find? (fun a => a.1 = key)).map (fun a => a.2)

/-- Links contributed by one element: parse the attribute value, parse
`baseURL`, resolve the former against the latter, and keep the result
only for the `http` / `https` schemes. -/
def elemLinks (baseURL : String) (e : HElem) : List String :=
  let an := extractAttrName e.tag
  if an = "" then [] else
  match findAttr an e.attrs with
  | none => []
  | some v =>
    match parseURL v with
    | none => []
    | some fullURL =>
      match parseURL baseURL with
      | none => []
      | some base =>
        let resolved := resolveReference base fullURL
        if resolved.scheme = "http" ∨ resolved.scheme = "https" then
          [urlString resolved]
        else []

/-- Model of `extractLinks(htmlContent, baseURL)`: every element's
candidate attribute, resolved against `baseURL`, in document order. -/
def extractLinks (doc : List HElem) (baseURL : String) : List String :=
  doc.flatMap (elemLinks baseURL)

/-- The link list `MirrorWebsite` feeds its child-spawning loop, per the
call `extractLinks(contentString, baseURL)` at src/main.go line 619.
`urlStr` is the URL the document was fetched from; `baseURL` is the root
URL of the mirror run. -/
def mirrorExtractedLinks (doc : List HElem) (urlStr baseURL : String) :
    List String :=
  extractLinks doc baseURL

/-! ## HTML rewriting (`rewriteHTML`, src/main.go lines 407-471) -/

/-- Does the rewriter touch attribute `key` of tag `tag`?  Per the
`switch n.Data` at lines 421-426: `a`/`link` rewrite `href`,
`img`/`script` rewrite `src`; there is no `form` case. -/
def rewriteKeyMatch (tag key : String) : Bool :=
  ((tag == "a" || tag == "link") && key == "href") ||
  ((tag == "img" || tag == "script") && key == "src")

/-- Rewrite one attribute value (lines 429-454): parse it, resolve it
against the current document's URL, and when the resolved host equals the
mirror's base host replace it by a path relative to the directory of the
current document's local file, falling back to a root-prefixed local path
when `filepath.Rel` fails; otherwise keep the value. -/
def rewriteVal (c b : GoURL) (v : String) : String :=
  match parseURL v with
  | none => v
  | some parsedLink =>
    let resolved := resolveReference c parsedLink
    if resolved.host = b.host then
      let rp0 := goTrimPrefix resolved.path "/"
      let rp := if goHasSuffix rp0 "/" || goExt rp0 == "" then
          goJoin2 rp0 "index.html" else rp0
      let localPath := goJoin2 resolved.host rp
      let cf0 := goJoin2 c.host (goTrimPrefix c.path "/")
      let cf := if goHasSuffix cf0 "/" || goExt cf0 == "" then
          goJoin2 cf0 "index.html" else cf0
      match goRel (goDir cf) localPath with
      | some r => r
      | none => "/" ++ localPath
    else v

/-- Rewrite one attribute pair. -/
def rewriteAttr (c b : GoURL) (tag : String) (a : String × String) :
    String × String :=
  if rewriteKeyMatch tag a.1 then (a.1, rewriteVal c b a.2) else a

/-- Rewrite the whole attribute list of one element. -/
def rewriteAttrs (c b : GoURL) (tag : String)
    (attrs : List (String × String)) : List (String × String) :=
  attrs.map (rewriteAttr c b tag)

/-- Model of `rewriteHTML(content, currentURL, baseURL)` on a parsed
document: every element's attributes are rewritten in place.  `c` and `b`
are the parsed current and base URLs (the source parses both strings and
ignores the errors). -/
def rewriteHTML (c b : GoURL) (doc : List HElem) : List HElem :=
  doc.map (fun e => ⟨e.tag, rewriteAttrs c b e.tag e.attrs⟩)

/-! ## Spec-side rewriting definitions

`specRewriteKeyMatch` follows the specification's words for §4.4 /
claim C4 — the rewriter processes *the same attribute set* as the
extractor, including `form` → `action` — for comparison with the source's
`rewriteKeyMatch`. -/

/-- Modelled from the spec: the attribute set claimed for the rewriting
pass — `href` on `a`/`link`, `src` on `img`/`script`, and `action` on
`form` — i.e. extraction's attribute set. -/
def specRewriteKeyMatch (tag key : String) : Bool :=
  rewriteKeyMatch tag key || (tag == "form" && key == "action")

/-- Modelled from the spec: attribute rewriting with the claimed
attribute set. -/
def specRewriteAttr (c b : GoURL) (tag : String) (a : String × String) :
    String × String :=
  if specRewriteKeyMatch tag a.1 then (a.1, rewriteVal c b a.2) else a

/-- Modelled from the spec: attribute-list rewriting with the claimed
attribute set. -/
def specRewriteAttrs (c b : GoURL) (tag : String)
    (attrs : List (String × String)) : List (String × String) :=
  attrs.map (specRewriteAttr c b tag)

/-- Modelled from the spec: document rewriting with the claimed
attribute set. -/
def specRewriteHTML (c b : GoURL) (doc : List HElem) : List HElem :=
  doc.map (fun e => ⟨e.tag, specRewriteAttrs c b e.tag e.attrs⟩)

/-! ## URL filter (`shouldReject`, src/main.go lines 522-540) -/

/-- Model of `shouldReject`: a parse failure rejects; then the
lower-cased path extension is compared with `"." + strings.ToLower(rExt)`
for each reject entry; then the raw path is searched for each exclude
entry as a plain substring. -/
def shouldReject (urlStr : String) (reject exclude : List String) : Bool :=
  match parseURL urlStr with
  | none => true
  | some u =>
    let ext := goToLower (goExt u.path)
    if reject.any (fun rExt => ext = "." ++ goToLower rExt) then true
    else if exclude.any (fun pattern => goContains u.path pattern) then true
    else false

/-- Model of the `-R` / `-X` flag splitting in `main` (src/main.go lines
780-794): an empty flag yields no entries, otherwise split on commas and
trim spaces. -/
def parseListFlag (s : String) : List String :=
  if s = "" then [] else (goSplitChar ',' s).map goTrimSpace

/-! ## Path mapping -/

/-- The local file path `MirrorWebsite` persists a fetched URL to
(src/main.go lines 599-605): the URL path with its leading `/` stripped,
`index.html` joined on when it ends in `/` or has no extension, joined
under the mirror base directory and the hostname. -/
def mirrorLocalPath (mirrorBaseDir : String) (u : GoURL) : String :=
  let relativeURLPath := goTrimPrefix u.path "/"
  let relativeURLPath :=
    if goHasSuffix relativeURLPath "/" || goExt relativeURLPath == "" then
      goJoin2 relativeURLPath "index.html"
    else relativeURLPath
  goJoin3 mirrorBaseDir u.host relativeURLPath

/-- The same computation as performed by `DownloadFile` in its mirroring
branch (src/main.go lines 263-269). -/
def downloadLocalPath (mirrorBaseDir : String) (u : GoURL) : String :=
  let relativeURLPath := goTrimPrefix u.path "/"
  let relativeURLPath :=
    if goHasSuffix relativeURLPath "/" || goExt relativeURLPath == "" then
      goJoin2 relativeURLPath "index.html"
    else relativeURLPath
  goJoin3 mirrorBaseDir u.host relativeURLPath

/-- Modelled from the spec (§4.6 / claim C5): the URL's path component
with the leading separator stripped; the implicit index document name
appended when that path is empty, ends in a separator, or has no
extension; joined under the mirror root and the URL's hostname. -/
def specLocalPath (mirrorRoot : String) (u : GoURL) : String :=
  let rel := goTrimPrefix u.path "/"
  let rel :=
    if rel = "" ∨ goHasSuffix rel "/" = true ∨ goExt rel = "" then
      goJoin2 rel "index.html"
    else rel
  goJoin3 mirrorRoot u.host rel

/-! ## The crawl scheduler's visited-set discipline
(`MirrorWebsite`, src/main.go lines 543-577)

Each call runs, in order: the interruption check (line 546), the depth
check (line 549), and the visited-set membership check *and* insertion
(lines 555-561), the latter two as one critical section under the shared
`w.mutex`; only after inserting does it issue the GET (lines 565-573).
Because the check-and-insert is a single critical section, any concurrent
execution of many `MirrorWebsite` calls is equivalent to some sequence of
the atomic steps below, one per call, in lock-acquisition order; a step
that reaches the insertion is followed by exactly one GET attempt by that
same call. -/

/-- Crawl-relevant state shared by all workers of one mirror run: the
visited set (as the list of inserted URLs) and the number of GET attempts
issued. -/
structure CrawlState where
  visited : List String
  attempts : Nat
  deriving DecidableEq

/-- The state at the start of a mirror run. -/
def initialCrawlState : CrawlState := ⟨[], 0⟩

/-- One `MirrorWebsite` call as observed at the lock: the interruption
flag it read, its URL and its depth. -/
structure CrawlTask where
  interrupted : Bool
  url : String
  depth : Int
  deriving DecidableEq

/-- How a `MirrorWebsite` call disposed of its task. -/
inductive MirrorAction where
  | aborted
  | skippedDepth
  | skippedVisited
  | fetched
  deriving DecidableEq

/-- The atomic step of one `MirrorWebsite` call against the shared state,
following the source order: interruption, depth bound, visited-set
check-and-insert, fetch. -/
def mirrorStep (maxDepth : Int) (s : CrawlState) (t : CrawlTask) :
    CrawlState × MirrorAction :=
  if t.interrupted then (s, MirrorAction.aborted)
  else if t.depth > maxDepth then (s, MirrorAction.skippedDepth)
  else if t.url ∈ s.visited then (s, MirrorAction.skippedVisited)
  else (⟨t.url :: s.visited, s.attempts + 1⟩, MirrorAction.fetched)

/-- Run a sequence of `MirrorWebsite` steps, returning the final state
and the trace of (url, action) events. -/
def crawlTrace (maxDepth : Int) : CrawlState → List CrawlTask →
    CrawlState × List (String × MirrorAction)
  | s, [] => (s, [])
  | s, t :: ts =>
    let r := mirrorStep maxDepth s t
    let rest := crawlTrace maxDepth r.1 ts
    (rest.1, (t.url, r.2) :: rest.2)

/-- Number of fetch events in a trace. -/
def countFetched (tr : List (String × MirrorAction)) : Nat :=
  (tr.filter (fun p => p.2 = MirrorAction.fetched)).length

/-- Number of fetch events for one URL in a trace. -/
def fetchesOf (u : String) (tr : List (String × MirrorAction)) : Nat :=
  (tr.filter (fun p => p.1 = u ∧ p.2 = MirrorAction.fetched)).length

/-! ## Single-file download (`DownloadFile`, src/main.go lines 227-326)

`DownloadFile` is modelled as a function from its inputs and the
environment's responses (URL parse result, HTTP response, copy outcome)
to the list of file-system effects it performs, in order, together with
its return value. -/

/-- The HTTP response fields `DownloadFile` reads. -/
structure HTTPResponse where
  statusCode : Int
  status : String
  deriving DecidableEq

/-- A file-system effect of `DownloadFile`. -/
inductive FSOp where
  | mkdirAll (dir : String)
  | createFile (path : String)
  deriving DecidableEq

/-- Model of `DownloadFile(urlStr, outputPath, directory, rateLimit,
isMirroring)`: `urlParse` is the request-construction outcome (`none` for
an invalid URL), `resp` the transport outcome (`none` for a failed
request), `copyOk` whether the body copy succeeded.  Returns the ordered
file-system effects and the function's result. -/
def downloadFile (urlParse : Option GoURL) (resp : Option HTTPResponse)
    (outputPath directory : String) (isMirroring : Bool)
    (mirrorBaseDir : String) (copyOk : Bool) :
    List FSOp × Except String Unit :=
  match urlParse with
  | none => ([], Except.error "invalid URL")
  | some u =>
    match resp with
    | none => ([], Except.error "request failed")
    | some r =>
      if r.statusCode ≠ 200 then
        ([], Except.error ("HTTP " ++ toString r.statusCode ++ ": " ++ r.status))
      else
        let finalOutputPath :=
          if isMirroring then downloadLocalPath mirrorBaseDir u
          else if outputPath = "" then
            let b := goPathBase u.path
            if b = "" ∨ b = "/" then "index.html" else b
          else outputPath
        let pre :=
          if directory ≠ "" ∧ ¬ isMirroring then
            ([FSOp.mkdirAll directory], goJoin2 directory finalOutputPath)
          else ([], finalOutputPath)
        let dir := goDir pre.2
        let ops := pre.1 ++ [FSOp.mkdirAll dir, FSOp.createFile pre.2]
        if copyOk then (ops, Except.ok ())
        else (ops, Except.error "download failed")

/-! ## Helper lemmas -/

/-- The empty string has empty extension. -/
theorem goExt_empty : goExt "" = "" := rfl

/-- The index-document condition of the source (`HasSuffix "/" ||
Ext == ""`, a `Bool`) holds exactly when the specification's condition
(empty, ends in a separator, or has no extension) does: an empty path has
no extension, so the explicit emptiness disjunct is subsumed. -/
theorem indexCondEquiv (rel : String) :
    ((goHasSuffix rel "/" || goExt rel == "") = true)
    ↔ (rel = "" ∨ goHasSuffix rel "/" = true ∨ goExt rel = "") := by
  rw [Bool.or_eq_true, beq_iff_eq]
  constructor
  · rintro (h | h)
    · exact Or.inr (Or.inl h)
    · exact Or.inr (Or.inr h)
  · rintro (h | h | h)
    · subst h; exact Or.inr rfl
    · exact Or.inl h
    · exact Or.inr h

/-- The empty pattern occurs in every string. -/
theorem goContains_empty (s : String) : goContains s "" = true := by
  unfold goContains
  cases s.data with
  | nil => rfl
  | cons c t => simp [listInfixOf, List.isPrefixOf]

/-! ## C5 — the URL→local-path mapping -/

/-- C5: the local mirror path of a URL is the URL's path component with
the leading separator stripped, `index.html` appended when that path is
empty, ends in a separator, or has no extension, joined under the mirror
root and the URL's hostname; `DownloadFile`'s mirroring branch computes
the identical pure function, so the same URL always yields the same local
path within one run. -/
theorem C5_local_path_spec (root : String) (u : GoURL) :
    mirrorLocalPath root u = specLocalPath root u
    ∧ downloadLocalPath root u = mirrorLocalPath root u := by
  refine ⟨?_, rfl⟩
  unfold mirrorLocalPath specLocalPath
  exact congrArg (goJoin3 root u.host) (if_congr (indexCondEquiv _) rfl rfl)

/-! ## C2 — the depth bound -/

/-- C2: a task whose depth exceeds the configured maximum never results
in a network fetch: `MirrorWebsite` leaves the shared state untouched and
does not reach the GET, and (when not interrupted, in which case it
returns even earlier) it reports the skip. -/
theorem C2_depth_bound_no_fetch (maxDepth : Int) (s : CrawlState)
    (t : CrawlTask) (h : t.depth > maxDepth) :
    (mirrorStep maxDepth s t).1 = s
    ∧ (mirrorStep maxDepth s t).2 ≠ MirrorAction.fetched
    ∧ (t.interrupted = false →
        (mirrorStep maxDepth s t).2 = MirrorAction.skippedDepth) := by
  unfold mirrorStep
  by_cases hi : t.interrupted = true
  · simp [hi]
  · simp only [Bool.not_eq_true] at hi
    simp [hi, h]

/-- C2 witness: a concrete task at depth 4 against maximum depth 3. -/
theorem C2_depth_bound_no_fetch_witness :
    ((⟨false, "http://example.com/a", 4⟩ : CrawlTask).depth > (3 : Int))
    ∧ ((mirrorStep 3 initialCrawlState ⟨false, "http://example.com/a", 4⟩).1
        = initialCrawlState
      ∧ (mirrorStep 3 initialCrawlState
          ⟨false, "http://example.com/a", 4⟩).2 ≠ MirrorAction.fetched
      ∧ ((⟨false, "http://example.com/a", 4⟩ : CrawlTask).interrupted = false →
        (mirrorStep 3 initialCrawlState
          ⟨false, "http://example.com/a", 4⟩).2 = MirrorAction.skippedDepth)) :=
  ⟨by decide,
    C2_depth_bound_no_fetch 3 initialCrawlState
      ⟨false, "http://example.com/a", 4⟩ (by decide)⟩

/-! ## C3 — which URL relative links are resolved against -/

/-- C3 counterexample: the claim states that link extraction resolves a
relative link against the document's own source URL.  For the document
`<a href="child.html">` fetched from
`http://example.com/sub/page.html` in a run rooted at
`http://example.com`, the links actually fed to the crawl (the call
`extractLinks(contentString, baseURL)` at line 619) resolve against the
run's root and yield `http://example.com/child.html`, not the
claimed `http://example.com/sub/child.html`. -/
theorem C3_resolution_counterexample :
    mirrorExtractedLinks [⟨"a", [("href", "child.html")]⟩]
        "http://example.com/sub/page.html" "http://example.com"
      = ["http://example.com/child.html"]
    ∧ extractLinks [⟨"a", [("href", "child.html")]⟩]
        "http://example.com/sub/page.html"
      = ["http://example.com/sub/child.html"]
    ∧ mirrorExtractedLinks [⟨"a", [("href", "child.html")]⟩]
        "http://example.com/sub/page.html" "http://example.com"
      ≠ extractLinks [⟨"a", [("href", "child.html")]⟩]
        "http://example.com/sub/page.html" :=
  ⟨by decide, by decide, by decide⟩

/-- C3 (amended): for every HTML document fetched during a mirror run,
link extraction resolves each relative link against the run's root
`baseURL` — the document's own source URL plays no role in producing the
set of absolute child URLs to follow. -/
theorem C3_resolves_against_run_base (doc : List HElem)
    (urlStr urlStr2 baseURL : String) :
    mirrorExtractedLinks doc urlStr baseURL = extractLinks doc baseURL
    ∧ mirrorExtractedLinks doc urlStr baseURL
      = mirrorExtractedLinks doc urlStr2 baseURL :=
  ⟨rfl, rfl⟩

/-! ## C4 — the rewriter's attribute set -/

/-- C4 counterexample: the claim states the rewriting pass processes the
same attribute set as link extraction, including `action` on `form`
tags.  On `<form action="/x.html">` with current and base URL
`http://example.com/page.html`, the source's rewriter leaves the
attribute untouched, while the claimed attribute set would rewrite it to
the local relative path `x.html`. -/
theorem C4_attr_set_counterexample :
    rewriteHTML ⟨"http", "", "example.com", "/page.html", "", ""⟩
        ⟨"http", "", "example.com", "/page.html", "", ""⟩
        [⟨"form", [("action", "/x.html")]⟩]
      = [⟨"form", [("action", "/x.html")]⟩]
    ∧ specRewriteHTML ⟨"http", "", "example.com", "/page.html", "", ""⟩
        ⟨"http", "", "example.com", "/page.html", "", ""⟩
        [⟨"form", [("action", "/x.html")]⟩]
      = [⟨"form", [("action", "x.html")]⟩]
    ∧ rewriteHTML ⟨"http", "", "example.com", "/page.html", "", ""⟩
        ⟨"http", "", "example.com", "/page.html", "", ""⟩
        [⟨"form", [("action", "/x.html")]⟩]
      ≠ specRewriteHTML ⟨"http", "", "example.com", "/page.html", "", ""⟩
        ⟨"http", "", "example.com", "/page.html", "", ""⟩
        [⟨"form", [("action", "/x.html")]⟩] :=
  ⟨by decide, by decide, by decide⟩

/-- C4 (amended): the rewriting pass processes `href` on anchor and link
tags and `src` on image and script tags exactly as the claimed attribute
set does, but `form` elements are never rewritten — their `action`
attribute is extracted for crawling only. -/
theorem C4_attr_set_amended (c b : GoURL) (tag : String)
    (attrs : List (String × String)) (h : tag ≠ "form") :
    rewriteAttrs c b tag attrs = specRewriteAttrs c b tag attrs
    ∧ rewriteAttrs c b "form" attrs = attrs := by
  constructor
  · unfold rewriteAttrs specRewriteAttrs
    refine List.map_congr_left (fun a _ => ?_)
    unfold rewriteAttr specRewriteAttr specRewriteKeyMatch
    have hb : (tag == "form") = false := by
      simpa using h
    simp [hb]
  · unfold rewriteAttrs
    have hall : ∀ a : String × String,
        rewriteAttr c b "form" a = a := by
      intro a
      unfold rewriteAttr rewriteKeyMatch
      have h1 : (("form" : String) == "a") = false := by decide
      have h2 : (("form" : String) == "link") = false := by decide
      have h3 : (("form" : String) == "img") = false := by decide
      have h4 : (("form" : String) == "script") = false := by decide
      simp [h1, h2, h3, h4]
    calc List.map (rewriteAttr c b "form") attrs
        = List.map id attrs := List.map_congr_left (fun a _ => hall a)
      _ = attrs := List.map_id attrs

/-- C4 witness: the amended statement at tag `a` and a form attribute
list. -/
theorem C4_attr_set_amended_witness :
    (("a" : String) ≠ "form")
    ∧ (rewriteAttrs ⟨"http", "", "example.com", "/page.html", "", ""⟩
        ⟨"http", "", "example.com", "/page.html", "", ""⟩ "a"
        [("action", "/x.html")]
      = specRewriteAttrs ⟨"http", "", "example.com", "/page.html", "", ""⟩
        ⟨"http", "", "example.com", "/page.html", "", ""⟩ "a"
        [("action", "/x.html")]
      ∧ rewriteAttrs ⟨"http", "", "example.com", "/page.html", "", ""⟩
        ⟨"http", "", "example.com", "/page.html", "", ""⟩ "form"
        [("action", "/x.html")]
      = [("action", "/x.html")]) :=
  ⟨by decide,
    C4_attr_set_amended ⟨"http", "", "example.com", "/page.html", "", ""⟩
      ⟨"http", "", "example.com", "/page.html", "", ""⟩ "a"
      [("action", "/x.html")] (by decide)⟩

/-! ## C6 — rewrite idempotence -/

/-- C6: rewriting is not idempotent.  For the document
`<a href="/a.html">` with current and base URL `http://example.com/`
(the root page of every mirror run), the first pass rewrites the link to
`example.com/a.html` — the rewriter's inlined copy of the path mapper
joins the hostname *before* testing for an extension, so the root page is
treated as a file named `example.com` — and a second pass treats that
value as a fresh same-host link and rewrites it again, to
`example.com/example.com/a.html`. -/
theorem C6_root_rewrite_not_idempotent :
    rewriteHTML ⟨"http", "", "example.com", "/", "", ""⟩
        ⟨"http", "", "example.com", "/", "", ""⟩
        [⟨"a", [("href", "/a.html")]⟩]
      = [⟨"a", [("href", "example.com/a.html")]⟩]
    ∧ rewriteHTML ⟨"http", "", "example.com", "/", "", ""⟩
        ⟨"http", "", "example.com", "/", "", ""⟩
        (rewriteHTML ⟨"http", "", "example.com", "/", "", ""⟩
          ⟨"http", "", "example.com", "/", "", ""⟩
          [⟨"a", [("href", "/a.html")]⟩])
      = [⟨"a", [("href", "example.com/example.com/a.html")]⟩]
    ∧ rewriteHTML ⟨"http", "", "example.com", "/", "", ""⟩
        ⟨"http", "", "example.com", "/", "", ""⟩
        (rewriteHTML ⟨"http", "", "example.com", "/", "", ""⟩
          ⟨"http", "", "example.com", "/", "", ""⟩
          [⟨"a", [("href", "/a.html")]⟩])
      ≠ rewriteHTML ⟨"http", "", "example.com", "/", "", ""⟩
        ⟨"http", "", "example.com", "/", "", ""⟩
        [⟨"a", [("href", "/a.html")]⟩] :=
  ⟨by decide, by decide, by decide⟩

/-! ## C8 — non-200 responses leave the file system untouched -/

/-- C8: for every HTTP response whose status code is not 200,
`DownloadFile` returns an error and performs no file-system effect — the
status check precedes every `MkdirAll` and `Create`. -/
theorem C8_non200_no_fs_effects (u : GoURL) (r : HTTPResponse)
    (outputPath directory : String) (isMirroring : Bool)
    (mirrorBaseDir : String) (copyOk : Bool) (h : r.statusCode ≠ 200) :
    downloadFile (some u) (some r) outputPath directory isMirroring
        mirrorBaseDir copyOk
      = ([], Except.error
          ("HTTP " ++ toString r.statusCode ++ ": " ++ r.status)) := by
  unfold downloadFile
  simp [h]

/-- C8 witness: a concrete 404 response. -/
theorem C8_non200_no_fs_effects_witness :
    ((⟨404, "404 Not Found"⟩ : HTTPResponse).statusCode ≠ 200)
    ∧ downloadFile (some ⟨"http", "", "example.com", "/a.html", "", ""⟩)
        (some ⟨404, "404 Not Found"⟩) "" "" false "" true
      = ([], Except.error "HTTP 404: 404 Not Found") := by
  refine ⟨by decide, ?_⟩
  have h := C8_non200_no_fs_effects
    ⟨"http", "", "example.com", "/a.html", "", ""⟩
    ⟨404, "404 Not Found"⟩ "" "" false "" true (by decide)
  simpa using h

/-! ## C10 — an empty exclude entry prunes everything -/

/-- C10: when the exclude list contains the empty string (as a trailing
comma in the `-X` flag value produces), every URL that parses
successfully is rejected, because every path contains the empty string as
a substring. -/
theorem C10_empty_exclude_rejects_all :
    (∀ (urlStr : String) (reject exclude : List String) (u : GoURL),
      parseURL urlStr = some u → "" ∈ exclude →
      shouldReject urlStr reject exclude = true)
    ∧ "" ∈ parseListFlag "/static," := by
  constructor
  · intro urlStr reject exclude u hp he
    unfold shouldReject
    rw [hp]
    have hany : exclude.any (fun pattern => goContains u.path pattern) = true :=
      List.any_eq_true.mpr ⟨"", he, goContains_empty u.path⟩
    by_cases hr : reject.any
        (fun rExt => goToLower (goExt u.path) = "." ++ goToLower rExt) = true
    · simp [hr]
    · simp [hr, hany]
  · decide

/-- C10 witness: a concrete URL against the exclude list produced by
`-X "/static,"`. -/
theorem C10_empty_exclude_rejects_all_witness :
    parseURL "http://example.com/a.html"
      = some ⟨"http", "", "example.com", "/a.html", "", ""⟩
    ∧ ("" ∈ ["/static", ""])
    ∧ shouldReject "http://example.com/a.html" [] ["/static", ""] = true :=
  ⟨by decide, by decide,
    C10_empty_exclude_rejects_all.1 "http://example.com/a.html" []
      ["/static", ""] ⟨"http", "", "example.com", "/a.html", "", ""⟩
      (by decide) (by decide)⟩

/-! ## C7 — the URL filter -/

/-- C7: `shouldReject` returns true exactly when the URL fails to parse
(fail closed), or the path's file extension case-insensitively equals `.`
followed by some reject-list entry, or the path contains some
exclude-list entry as a plain substring. -/
theorem C7_shouldReject_iff (urlStr : String) (reject exclude : List String) :
    shouldReject urlStr reject exclude = true
    ↔ parseURL urlStr = none
      ∨ ∃ u, parseURL urlStr = some u
        ∧ ((∃ r ∈ reject, goToLower (goExt u.path) = "." ++ goToLower r)
           ∨ ∃ p ∈ exclude, goContains u.path p = true) := by
  cases hp : parseURL urlStr with
  | none => simp [shouldReject, hp]
  | some u =>
    simp only [shouldReject, hp]
    have hsplit : ∀ (P Q : Prop) (dP : Decidable P) (dQ : Decidable Q),
        ((if P then true else if Q then true else false) = true)
          ↔ (P ∨ Q) := by
      intro P Q dP dQ
      by_cases hP : P
      · simp [hP]
      · by_cases hQ : Q <;> simp [hP, hQ]
    rw [hsplit]
    simp [List.any_eq_true]

/-! ## C1 — the visited-set discipline -/

/-- Unfolding equation for one crawl step. -/
theorem crawlTrace_cons (maxDepth : Int) (s : CrawlState) (t : CrawlTask)
    (ts : List CrawlTask) :
    crawlTrace maxDepth s (t :: ts)
      = ((crawlTrace maxDepth (mirrorStep maxDepth s t).1 ts).1,
         (t.url, (mirrorStep maxDepth s t).2)
           :: (crawlTrace maxDepth (mirrorStep maxDepth s t).1 ts).2) := rfl

/-- Fetch count of a trace extended on the left. -/
theorem countFetched_cons (p : String × MirrorAction)
    (tr : List (String × MirrorAction)) :
    countFetched (p :: tr)
      = countFetched tr
        + (if p.2 = MirrorAction.fetched then 1 else 0) := by
  unfold countFetched
  rw [List.filter_cons]
  by_cases h : p.2 = MirrorAction.fetched <;> simp [h]

/-- Per-URL fetch count of a trace extended on the left. -/
theorem fetchesOf_cons (u : String) (p : String × MirrorAction)
    (tr : List (String × MirrorAction)) :
    fetchesOf u (p :: tr)
      = fetchesOf u tr
        + (if p.1 = u ∧ p.2 = MirrorAction.fetched then 1 else 0) := by
  unfold fetchesOf
  rw [List.filter_cons]
  by_cases h : p.1 = u ∧ p.2 = MirrorAction.fetched <;> simp [h]

/-- The crawl invariant: starting from a duplicate-free state whose
attempt counter matches its visited set, every run keeps the visited set
duplicate-free and in bijection with the fetch attempts, never fetches an
already-visited URL, and fetches each URL at most once. -/
theorem crawl_inv (maxDepth : Int) (ts : List CrawlTask) :
    ∀ s : CrawlState, s.visited.Nodup → s.attempts = s.visited.length →
      ((crawlTrace maxDepth s ts).1.visited.Nodup
      ∧ (crawlTrace maxDepth s ts).1.attempts
          = (crawlTrace maxDepth s ts).1.visited.length
      ∧ (crawlTrace maxDepth s ts).1.visited.length
          = s.visited.length + countFetched (crawlTrace maxDepth s ts).2
      ∧ (∀ u, u ∈ s.visited → fetchesOf u (crawlTrace maxDepth s ts).2 = 0)
      ∧ (∀ u, fetchesOf u (crawlTrace maxDepth s ts).2 ≤ 1)) := by
  induction ts with
  | nil =>
    intro s h1 h2
    exact ⟨h1, h2, by simp [crawlTrace, countFetched],
      fun u _ => by simp [crawlTrace, fetchesOf],
      fun u => by simp [crawlTrace, fetchesOf]⟩
  | cons t ts ih =>
    intro s h1 h2
    rw [crawlTrace_cons]
    by_cases hint : t.interrupted = true
    · have hstep : mirrorStep maxDepth s t = (s, MirrorAction.aborted) := by
        unfold mirrorStep
        rw [if_pos hint]
      rw [hstep]
      obtain ⟨i1, i2, i3, i4, i5⟩ := ih s h1 h2
      refine ⟨i1, i2, ?_, ?_, ?_⟩
      · rw [countFetched_cons]
        simpa using i3
      · intro u hu
        rw [fetchesOf_cons]
        simpa using i4 u hu
      · intro u
        rw [fetchesOf_cons]
        simpa using i5 u
    · rw [Bool.not_eq_true] at hint
      by_cases hdep : t.depth > maxDepth
      · have hstep : mirrorStep maxDepth s t = (s, MirrorAction.skippedDepth) := by
          unfold mirrorStep
          rw [hint]
          simp [hdep]
        rw [hstep]
        obtain ⟨i1, i2, i3, i4, i5⟩ := ih s h1 h2
        refine ⟨i1, i2, ?_, ?_, ?_⟩
        · rw [countFetched_cons]
          simpa using i3
        · intro u hu
          rw [fetchesOf_cons]
          simpa using i4 u hu
        · intro u
          rw [fetchesOf_cons]
          simpa using i5 u
      · by_cases hvis : t.url ∈ s.visited
        · have hstep : mirrorStep maxDepth s t
              = (s, MirrorAction.skippedVisited) := by
            unfold mirrorStep
            rw [hint]
            simp [hdep, hvis]
          rw [hstep]
          obtain ⟨i1, i2, i3, i4, i5⟩ := ih s h1 h2
          refine ⟨i1, i2, ?_, ?_, ?_⟩
          · rw [countFetched_cons]
            simpa using i3
          · intro u hu
            rw [fetchesOf_cons]
            simpa using i4 u hu
          · intro u
            rw [fetchesOf_cons]
            simpa using i5 u
        · have hstep : mirrorStep maxDepth s t
              = (⟨t.url :: s.visited, s.attempts + 1⟩, MirrorAction.fetched) := by
            unfold mirrorStep
            rw [hint]
            simp [hdep, hvis]
          rw [hstep]
          have h1n : (t.url :: s.visited).Nodup :=
            List.nodup_cons.mpr ⟨hvis, h1⟩
          have h2n : s.attempts + 1 = (t.url :: s.visited).length := by
            simp [h2]
          obtain ⟨i1, i2, i3, i4, i5⟩ :=
            ih ⟨t.url :: s.visited, s.attempts + 1⟩ h1n h2n
          refine ⟨i1, i2, ?_, ?_, ?_⟩
          · rw [countFetched_cons]
            simp only [List.length_cons] at i3
            simp
            omega
          · intro u hu
            rw [fetchesOf_cons]
            have hne : ¬(t.url = u ∧ MirrorAction.fetched = MirrorAction.fetched) := by
              rintro ⟨rfl, -⟩
              exact hvis hu
            rw [if_neg hne]
            have : u ∈ (⟨t.url :: s.visited, s.attempts + 1⟩ : CrawlState).visited :=
              List.mem_cons_of_mem _ hu
            simpa using i4 u this
          · intro u
            rw [fetchesOf_cons]
            by_cases hu : t.url = u
            · subst hu
              have h0 : fetchesOf t.url
                  (crawlTrace maxDepth ⟨t.url :: s.visited, s.attempts + 1⟩ ts).2
                  = 0 :=
                i4 t.url (List.mem_cons_self _ _)
              simp [h0]
            · have hne : ¬(t.url = u ∧ MirrorAction.fetched = MirrorAction.fetched) := by
                rintro ⟨rfl, -⟩
                exact hu rfl
              rw [if_neg hne]
              simpa using i5 u

/-- C1: in every mirror run, modelled as any interleaving of the atomic
check-and-insert steps that the shared lock serialises, the final size of
the visited set equals the number of fetch attempts, and no URL is
fetched twice — even when the same URL is discovered concurrently from
two different parent pages (the same URL appearing in any number of
tasks). -/
theorem C1_no_url_fetched_twice (maxDepth : Int) (tasks : List CrawlTask) :
    (crawlTrace maxDepth initialCrawlState tasks).1.visited.length
      = (crawlTrace maxDepth initialCrawlState tasks).1.attempts
    ∧ (crawlTrace maxDepth initialCrawlState tasks).1.attempts
      = countFetched (crawlTrace maxDepth initialCrawlState tasks).2
    ∧ ∀ u, fetchesOf u (crawlTrace maxDepth initialCrawlState tasks).2 ≤ 1 := by
  obtain ⟨i1, i2, i3, i4, i5⟩ :=
    crawl_inv maxDepth tasks initialCrawlState (by simp [initialCrawlState])
      (by simp [initialCrawlState])
  refine ⟨i2.symm, ?_, i5⟩
  rw [i2, i3]
  simp [initialCrawlState]

end GoWget
